import Mathlib

/-!
Verification of the bounded-value, tween/easing, and panning-control
core of the kira audio library, via a shallow embedding in Lean 4.

Floating-point values are modelled as rationals (`ℚ`); the IEEE special
values needed at the deserialization boundary are modelled by the `F32`
type below.  `f64::powf` is a transcendental operation with no exact
rational counterpart, so it is threaded through the easing definitions
as an explicit function parameter `pf : ℚ → ℚ → ℚ`; theorems that need a
property of it (IEEE guarantees `powf(1, p) = 1` for every `p`) state
that property as a hypothesis.
-/

/- ## Bounded value types: Panning (src/crates/kira/src/panning.rs) -/

namespace Panning

/-- `Panning::LEFT`: play the sound from the left speaker only. -/
def LEFT : ℚ := -1

/-- `Panning::CENTER`: play the sound from both speakers at the same volume. -/
def CENTER : ℚ := 0

/-- `Panning::RIGHT`: play the sound from the right speaker only. -/
def RIGHT : ℚ := 1

end Panning

/-- The `bounded` helper in panning.rs: clamp a raw value into
`[Panning::LEFT, Panning::RIGHT]`, first checking `x < LEFT`, then
`x > RIGHT`, otherwise returning `x` unchanged. -/
def bounded (x : ℚ) : ℚ :=
  if x < Panning.LEFT then Panning.LEFT
  else if x > Panning.RIGHT then Panning.RIGHT
  else x

/-- Truncation toward zero, as Rust's `f32::trunc` behaves on the
quotient inside the float remainder operation. -/
def ftrunc (q : ℚ) : ℤ :=
  if 0 ≤ q then ⌊q⌋ else ⌈q⌉

/-- Rust's float `%`: the remainder of truncated division,
`x - y * trunc(x / y)`. -/
def frem (x y : ℚ) : ℚ :=
  x - y * (ftrunc (x / y) : ℚ)

namespace Panning

/-- `Panning::saturating_add` (panning.rs): `bounded(self.0 + v)`;
the NaN case is excluded by the ℚ domain, matching the debug assertion. -/
def saturating_add (p v : ℚ) : ℚ := bounded (p + v)

/-- `Panning::saturating_sub` (panning.rs): `bounded(self.0 - v)`. -/
def saturating_sub (p v : ℚ) : ℚ := bounded (p - v)

/-- `Panning::saturating_mul` (panning.rs): `bounded(self.0 * v)`. -/
def saturating_mul (p v : ℚ) : ℚ := bounded (p * v)

/-- `Panning::saturating_div` (panning.rs): `bounded(self.0 / v)`;
the zero-divisor case is excluded by the debug assertion. -/
def saturating_div (p v : ℚ) : ℚ := bounded (p / v)

/-- `Panning::saturating_rem` (panning.rs): `bounded(self.0 % v)`. -/
def saturating_rem (p v : ℚ) : ℚ := bounded (frem p v)

/-- `impl Neg for Panning` (panning.rs): `Self(-self.0)` — note: no
clamping is applied by the source. -/
def neg (p : ℚ) : ℚ := -p

/-- A value lies in Panning's valid interval `[-1, 1]`. -/
def inRange (x : ℚ) : Prop := LEFT ≤ x ∧ x ≤ RIGHT

instance (x : ℚ) : Decidable (inRange x) := by
  unfold inRange; infer_instance

end Panning

/- ## Bounded value types: Mix (src/crates/kira/src/mix.rs) -/

namespace Mix

/-- `Mix::DRY`: only output the dry signal. -/
def DRY : ℚ := 0

/-- `Mix::WET`: only output the wet signal. -/
def WET : ℚ := 1

/-- `impl Add for Mix` (mix.rs): `Self(self.0 + rhs.0)` — no clamping. -/
def add (a b : ℚ) : ℚ := a + b

/-- `impl Sub for Mix` (mix.rs): `Self(self.0 - rhs.0)` — no clamping. -/
def sub (a b : ℚ) : ℚ := a - b

/-- `impl Mul<f32> for Mix` (mix.rs): `Self(self.0 * rhs)` — no clamping. -/
def mul (a v : ℚ) : ℚ := a * v

/-- `impl Div<f32> for Mix` (mix.rs): `Self(self.0 / rhs)` — no clamping. -/
def div (a v : ℚ) : ℚ := a / v

/-- `impl Neg for Mix` (mix.rs): `Self(-self.0)` — no clamping. -/
def neg (a : ℚ) : ℚ := -a

/-- `impl Rem<f32> for Mix` (mix.rs): `Self(self.0 % rhs)` — no clamping. -/
def rem (a v : ℚ) : ℚ := frem a v

/-- A value lies in Mix's valid interval `[0, 1]`. -/
def inRange (x : ℚ) : Prop := DRY ≤ x ∧ x ≤ WET

instance (x : ℚ) : Decidable (inRange x) := by
  unfold inRange; infer_instance

end Mix

/- ## Shared helper lemmas -/

/-- The `bounded` clamp always lands in `[-1, 1]`, whatever its input. -/
theorem bounded_in_range (x : ℚ) : Panning.inRange (bounded x) := by
  unfold bounded Panning.inRange Panning.LEFT Panning.RIGHT
  split_ifs with h1 h2
  · exact ⟨le_refl _, by norm_num⟩
  · exact ⟨by norm_num, le_refl _⟩
  · exact ⟨le_of_not_lt h1, le_of_not_lt h2⟩

/-- C1: for Panning, the five saturating operators clamp into `[-1, 1]`
for every finite operand (nonzero for division and remainder), and
negation maps the valid interval into itself. -/
theorem panning_ops_in_range (p : ℚ) (hp1 : -1 ≤ p) (hp2 : p ≤ 1) :
    (∀ v : ℚ, Panning.inRange (Panning.saturating_add p v) ∧
      Panning.inRange (Panning.saturating_sub p v) ∧
      Panning.inRange (Panning.saturating_mul p v)) ∧
    (∀ v : ℚ, v ≠ 0 → Panning.inRange (Panning.saturating_div p v) ∧
      Panning.inRange (Panning.saturating_rem p v)) ∧
    Panning.inRange (Panning.neg p) := by
  refine ⟨fun v => ⟨bounded_in_range _, bounded_in_range _, bounded_in_range _⟩,
    fun v _ => ⟨bounded_in_range _, bounded_in_range _⟩, ?_⟩
  unfold Panning.inRange Panning.neg Panning.LEFT Panning.RIGHT
  constructor <;> linarith

theorem panning_ops_in_range_witness :
    Panning.inRange (Panning.saturating_add (1/2) (7/4)) ∧
    Panning.inRange (Panning.saturating_div (1/2) (1/4)) ∧
    Panning.inRange (Panning.neg (1/2)) := by
  obtain ⟨h1, h2, h3⟩ := panning_ops_in_range (1/2) (by norm_num) (by norm_num)
  exact ⟨(h1 (7/4)).1, (h2 (1/4) (by norm_num)).1, h3⟩

/-- C1 counterexample: Mix's `+` does not clamp; `Mix(0.75) + Mix(0.75)`
is `1.5`, outside `[0, 1]`. -/
theorem mix_add_escapes_range :
    Mix.add (3/4) (3/4) = 3/2 ∧ ¬ Mix.inRange (Mix.add (3/4) (3/4)) := by
  constructor
  · norm_num [Mix.add]
  · intro h
    have := h.2
    norm_num [Mix.add, Mix.WET] at this

/- ## Interpolation (Tweenable impls) -/

/-- Modelled from the spec: `impl Tweenable for f32` is not under src/;
the spec describes the base interpolation as a linear blend between the
two endpoints, `a + (b - a) * amount`. -/
def lerp (a b t : ℚ) : ℚ := a + (b - a) * t

/-- Rust's `f32::clamp(0.0, 1.0)` as used by `Tweenable for Mix`:
below the minimum gives the minimum, above the maximum gives the
maximum, otherwise the value itself. -/
def clamp01 (x : ℚ) : ℚ :=
  if x < Mix.DRY then Mix.DRY
  else if x > Mix.WET then Mix.WET
  else x

/-- `Tweenable for Panning` (panning.rs): delegates straight to the f32
interpolation of the raw inner values — no clamping of the endpoints. -/
def Panning.interpolate (a b t : ℚ) : ℚ := lerp a b t

/-- `Tweenable for Mix` (mix.rs): clamps both endpoints into
`[DRY, WET]` and then delegates to the f32 interpolation. -/
def Mix.interpolate (a b t : ℚ) : ℚ :=
  lerp (clamp01 a) (clamp01 b) t

/-- C2 counterexample: `Panning::interpolate` does not clamp its
endpoints; with the out-of-range endpoint `a = 2.0`,
`interpolate(2, 0, 0)` is `2`, not `clamp(2) = 1`. -/
theorem panning_interpolate_no_clamp :
    Panning.interpolate 2 0 0 = 2 ∧ bounded 2 = 1 ∧
      Panning.interpolate 2 0 0 ≠ bounded 2 := by
  refine ⟨by norm_num [Panning.interpolate, lerp], ?_, ?_⟩ <;>
    norm_num [Panning.interpolate, lerp, bounded, Panning.LEFT, Panning.RIGHT]

/-- C2 amended: `Mix::interpolate` clamps both endpoints and then blends,
so its `t = 0` and `t = 1` evaluations give the clamped endpoints for all
inputs; `Panning::interpolate` blends the raw endpoints without clamping,
so the same identities hold only when the endpoints are already in range
(where the clamp is the identity). -/
theorem interpolate_endpoints (a b : ℚ) (ha1 : -1 ≤ a) (ha2 : a ≤ 1)
    (hb1 : -1 ≤ b) (hb2 : b ≤ 1) :
    (∀ x y : ℚ, Mix.interpolate x y 0 = clamp01 x ∧
      Mix.interpolate x y 1 = clamp01 y) ∧
    Panning.interpolate a b 0 = bounded a ∧
    Panning.interpolate a b 1 = bounded b := by
  refine ⟨fun x y => ⟨?_, ?_⟩, ?_, ?_⟩
  · unfold Mix.interpolate lerp; ring
  · unfold Mix.interpolate lerp; ring
  · unfold Panning.interpolate lerp bounded Panning.LEFT Panning.RIGHT
    split_ifs with h1 h2
    · linarith
    · linarith
    · ring
  · unfold Panning.interpolate lerp bounded Panning.LEFT Panning.RIGHT
    split_ifs with h1 h2
    · linarith
    · linarith
    · ring

theorem interpolate_endpoints_witness :
    (∀ x y : ℚ, Mix.interpolate x y 0 = clamp01 x ∧
      Mix.interpolate x y 1 = clamp01 y) ∧
    Panning.interpolate (1/2) (-3/4) 0 = bounded (1/2) ∧
    Panning.interpolate (1/2) (-3/4) 1 = bounded (-3/4) :=
  interpolate_endpoints (1/2) (-3/4) (by norm_num) (by norm_num)
    (by norm_num) (by norm_num)

/- ## Deserialization boundary -/

/-- Model of an `f32` at the serde boundary: a finite rational, NaN, or
one of the two infinities. -/
inductive F32 where
  | finite (q : ℚ)
  | nan
  | inf
  | negInf
deriving DecidableEq

/-- IEEE `<=` on the modelled floats: NaN compares false with
everything; the infinities bound all finite values. -/
def F32.fle : F32 → F32 → Bool
  | .nan, _ => false
  | _, .nan => false
  | .negInf, _ => true
  | .finite _, .negInf => false
  | .inf, .negInf => false
  | .finite x, .finite y => decide (x ≤ y)
  | .finite _, .inf => true
  | .inf, .finite _ => false
  | .inf, .inf => true

/-- Rust's `RangeInclusive::contains` on floats:
`lo <= v && v <= hi` with IEEE comparisons. -/
def rangeContains (lo hi v : F32) : Bool := lo.fle v && v.fle hi

/-- The `deserialize` helper in mix.rs: deserializes the raw float and
accepts it iff `(0.0..=1.0).contains(&value)`, otherwise fails with an
`invalid_value` error (modelled by `none`). -/
def Mix.deserialize (v : F32) : Option F32 :=
  if rangeContains (.finite Mix.DRY) (.finite Mix.WET) v then some v else none

/-- The `deserialize` helper in panning.rs: accepts the raw float iff
`(-1.0..=1.0).contains(&value)`, otherwise fails with an
`invalid_value` error (modelled by `none`). -/
def Panning.deserialize (v : F32) : Option F32 :=
  if rangeContains (.finite Panning.LEFT) (.finite Panning.RIGHT) v
  then some v else none

/-- C3: deserialization succeeds (returning the same float) exactly when
the input is a finite value inside the type's closed interval — NaN and
the infinities are always rejected — and otherwise fails with a
validation error; in particular Mix rejects 1.5, -2, 2, NaN, ±∞ and
accepts 0, 0.5, 1. -/
theorem deserialize_validates :
    (∀ v : F32,
      (Mix.deserialize v = some v ↔
        ∃ q : ℚ, v = F32.finite q ∧ 0 ≤ q ∧ q ≤ 1) ∧
      (Panning.deserialize v = some v ↔
        ∃ q : ℚ, v = F32.finite q ∧ -1 ≤ q ∧ q ≤ 1) ∧
      (Mix.deserialize v = some v ∨ Mix.deserialize v = none) ∧
      (Panning.deserialize v = some v ∨ Panning.deserialize v = none)) ∧
    Mix.deserialize (.finite (3/2)) = none ∧
    Mix.deserialize (.finite (-2)) = none ∧
    Mix.deserialize (.finite 2) = none ∧
    Mix.deserialize .nan = none ∧
    Mix.deserialize .inf = none ∧
    Mix.deserialize .negInf = none ∧
    Mix.deserialize (.finite 0) = some (.finite 0) ∧
    Mix.deserialize (.finite (1/2)) = some (.finite (1/2)) ∧
    Mix.deserialize (.finite 1) = some (.finite 1) ∧
    Panning.deserialize (.finite (-1)) = some (.finite (-1)) ∧
    Panning.deserialize .nan = none ∧
    Panning.deserialize .inf = none ∧
    Panning.deserialize (.finite (-3/2)) = none := by
  refine ⟨fun v => ?_, ?_⟩
  · rcases v with q | _ | _ | _ <;>
      simp [Mix.deserialize, Panning.deserialize, rangeContains, F32.fle,
        Mix.DRY, Mix.WET, Panning.LEFT, Panning.RIGHT] <;>
      by_cases h0 : (0:ℚ) ≤ q <;> by_cases hm : (-1:ℚ) ≤ q <;>
      by_cases h1 : q ≤ 1 <;>
      simp [h0, hm, h1] <;> try push_neg at * <;> first | tauto | linarith
  · refine ⟨?_, ?_, ?_, ?_, ?_, ?_, ?_, ?_, ?_, ?_, ?_, ?_, ?_⟩ <;>
      norm_num [Mix.deserialize, Panning.deserialize, rangeContains, F32.fle,
        Mix.DRY, Mix.WET, Panning.LEFT, Panning.RIGHT]

/- ## Easing and tweening (src/kira/src/parameter/tween.rs) -/

/-- The `Easing` enum: `Linear`, `PowI(i32)`, `PowF(f64)`. -/
inductive Easing where
  | linear
  | powI (n : ℤ)
  | powF (p : ℚ)
deriving DecidableEq

/-- `Easing::apply` (tween.rs): `Linear` returns `t`, `PowI(n)` returns
`t.powi(n)`, `PowF(p)` returns `t.powf(p)`; the transcendental `powf` is
the explicit parameter `pf`. -/
def Easing.apply (pf : ℚ → ℚ → ℚ) : Easing → ℚ → ℚ
  | .linear, t => t
  | .powI n, t => t ^ n
  | .powF p, t => pf t p

/-- The `EaseDirection` enum: `In`, `Out`, `InOut`. -/
inductive EaseDirection where
  | easeIn
  | easeOut
  | easeInOut
deriving DecidableEq

/-- The `Tween` tuple struct: `(duration, easing, direction)`. -/
structure Tween where
  duration : ℚ
  easing : Easing
  direction : EaseDirection

/-- `Tween::ease` (tween.rs): `In` applies the curve directly, `Out`
computes `1 - apply(1 - t)`, and `InOut` doubles `t`, uses
`0.5 * apply(t)` in the first half and `0.5 * (1 - apply(2 - t)) + 0.5`
in the second. -/
def Tween.ease (pf : ℚ → ℚ → ℚ) (tw : Tween) (t : ℚ) : ℚ :=
  match tw.direction with
  | .easeIn => tw.easing.apply pf t
  | .easeOut => 1 - tw.easing.apply pf (1 - t)
  | .easeInOut =>
      if 2 * t < 1 then (1/2) * tw.easing.apply pf (2 * t)
      else (1/2) * (1 - tw.easing.apply pf (2 - 2 * t)) + 1/2

/-- `Tween::tween` (tween.rs): normalize the time against the duration,
shape it through `ease`, then lerp between the endpoints. -/
def Tween.tween (pf : ℚ → ℚ → ℚ) (tw : Tween) (a b time : ℚ) : ℚ :=
  let t := time / tw.duration
  let t := tw.ease pf t
  a + (b - a) * t

/-- C7: `Easing::apply` is the identity for `Linear`, the integer power
for `PowI`, and the floating power for `PowF`; `Tween::ease` with
direction `In` is `apply(t)` and with direction `Out` is
`1 - apply(1 - t)`. -/
theorem easing_apply_and_directions (pf : ℚ → ℚ → ℚ) (t : ℚ) (n : ℤ)
    (p d : ℚ) (e : Easing) :
    Easing.linear.apply pf t = t ∧
    (Easing.powI n).apply pf t = t ^ n ∧
    (Easing.powF p).apply pf t = pf t p ∧
    (Tween.mk d e EaseDirection.easeIn).ease pf t = e.apply pf t ∧
    (Tween.mk d e EaseDirection.easeOut).ease pf t
      = 1 - e.apply pf (1 - t) :=
  ⟨rfl, rfl, rfl, rfl, rfl⟩

/-- C4: for a positive duration, `Tween::tween(from, to, elapsed)` equals
`from + (to - from) * ease(elapsed / duration)`. -/
theorem tween_is_lerp_of_ease (pf : ℚ → ℚ → ℚ) (tw : Tween)
    (a b time : ℚ) (hd : 0 < tw.duration) :
    tw.tween pf a b time = a + (b - a) * tw.ease pf (time / tw.duration) :=
  rfl

theorem tween_is_lerp_of_ease_witness :
    (Tween.mk 2 Easing.linear EaseDirection.easeIn).tween (fun t _ => t) 0 4 1
      = 0 + (4 - 0) * (Tween.mk 2 Easing.linear EaseDirection.easeIn).ease
          (fun t _ => t) (1 / 2) :=
  tween_is_lerp_of_ease (fun t _ => t)
    (Tween.mk 2 Easing.linear EaseDirection.easeIn) 0 4 1 (by norm_num)

/-- C6: at `t = 0.5` the `InOut` second-half branch (which is what
`Tween::ease` evaluates there) agrees with the first-half formula
`0.5 * apply(2t)`: both equal `0.5`, because `apply(1) = 1` for every
shape (`powf(1, p) = 1` is the IEEE guarantee assumed of `pf`). -/
theorem inout_continuous_at_half (pf : ℚ → ℚ → ℚ)
    (hpf : ∀ p : ℚ, pf 1 p = 1) (d : ℚ) (e : Easing) :
    (Tween.mk d e EaseDirection.easeInOut).ease pf (1/2) = 1/2 ∧
    (1/2) * e.apply pf (2 * (1/2)) = 1/2 := by
  have happly : e.apply pf 1 = 1 := by
    cases e with
    | linear => rfl
    | powI n => exact one_zpow n
    | powF p => exact hpf p
  constructor
  · unfold Tween.ease
    norm_num [happly]
  · norm_num [happly]

theorem inout_continuous_at_half_witness :
    (Tween.mk 3 (Easing.powF (1/2)) EaseDirection.easeInOut).ease
        (fun t _ => t) (1/2) = 1/2 ∧
    (1/2) * (Easing.powF (1/2)).apply (fun t _ => t) (2 * (1/2)) = 1/2 :=
  inout_continuous_at_half (fun t _ => t) (fun _ => rfl) 3
    (Easing.powF (1/2))

/-- C10: with the `Linear` shape, `Tween::ease` is the identity on
`[0, 1]` for every direction. -/
theorem linear_ease_identity (pf : ℚ → ℚ → ℚ) (d t : ℚ)
    (dir : EaseDirection) (h0 : 0 ≤ t) (h1 : t ≤ 1) :
    (Tween.mk d Easing.linear dir).ease pf t = t := by
  cases dir
  · rfl
  · unfold Tween.ease
    simp only [Easing.apply]
    ring
  · unfold Tween.ease
    simp only [Easing.apply]
    split_ifs <;> ring

theorem linear_ease_identity_witness :
    (Tween.mk 1 Easing.linear EaseDirection.easeInOut).ease
      (fun t _ => t) (1/3) = 1/3 :=
  linear_ease_identity (fun t _ => t) 1 (1/3) EaseDirection.easeInOut
    (by norm_num) (by norm_num)

/- ## Checked construction (From<f32> impls) -/

/-- `impl From<f32> for Panning` (panning.rs), debug-build semantics:
`debug_assert!((-1.0..=1.0).contains(&value))`, then `Self(value)`.
A failed assertion is modelled by `none`; the value is never clamped. -/
def Panning.fromF32 (v : ℚ) : Option ℚ :=
  if -1 ≤ v ∧ v ≤ 1 then some v else none

/-- `impl From<f32> for Mix` (mix.rs): `Self(value)` — no assertion and
no clamp, the raw value is wrapped unconditionally. -/
def Mix.fromF32 (v : ℚ) : Option ℚ := some v

/-- C8 counterexample: Mix's `From<f32>` neither clamps nor asserts;
the out-of-range input `1.5` silently produces an out-of-range value. -/
theorem mix_fromF32_unchecked :
    Mix.fromF32 (3/2) = some (3/2) ∧ ¬ Mix.inRange (3/2) := by
  refine ⟨rfl, ?_⟩
  intro h
  have := h.2
  norm_num [Mix.WET] at this

/-- C8 amended: Panning's `From<f32>` debug-asserts the interval, so an
in-range input passes through unclamped and an out-of-range input fails
the assertion rather than passing silently; Mix's `From<f32>` performs
no check at all and wraps the raw value. -/
theorem fromF32_checking (v : ℚ) :
    ((-1 ≤ v ∧ v ≤ 1) → Panning.fromF32 v = some v) ∧
    (¬ (-1 ≤ v ∧ v ≤ 1) → Panning.fromF32 v = none) ∧
    Mix.fromF32 v = some v := by
  refine ⟨fun h => ?_, fun h => ?_, rfl⟩ <;> simp [Panning.fromF32, h]

theorem fromF32_checking_witness :
    Panning.fromF32 2 = none ∧ Mix.fromF32 2 = some 2 := by
  obtain ⟨_, h2, h3⟩ := fromF32_checking 2
  exact ⟨h2 (by norm_num), h3⟩

/- ## Parameter, commands and the panning-control effect -/

/-- `Value<T>` (referenced from src, definition not under src/).
Modelled from the spec: either a fixed value, or a non-owning reference
to another live parameter, resolved through a registry at read time. -/
inductive Value where
  | fixed (q : ℚ)
  | linked (id : ℕ)

/-- Modelled from the spec: a parameter-change command — `SetImmediate`
assigns a value and cancels any in-flight tween, `SetValue` begins a new
tween toward a target. -/
inductive Command where
  | setImmediate (v : ℚ)
  | setValue (target : ℚ) (tw : Tween)

/-- Modelled from the spec: the in-flight tween state of a parameter —
the value at the moment the tween began, the target, the tween spec and
the elapsed time. -/
structure ActiveTween where
  start : ℚ
  target : ℚ
  spec : Tween
  elapsed : ℚ

/-- `Parameter` (referenced from src, definition not under src/).
Modelled from the spec: a mutable automation cell holding the current
value, the authored value specification, the caller-supplied default
used when a linked parameter cannot be resolved, and an optional
in-flight tween. -/
structure Parameter where
  spec : Value
  defaultValue : ℚ
  current : ℚ
  activeTween : Option ActiveTween

namespace Parameter

/-- `Parameter::new(value, default_value)` (not under src/).  Modelled
from the spec: created with an initial value and a caller-supplied
default; a fixed value starts at that value, a linked one at the
default; no tween is active. -/
def new (v : Value) (d : ℚ) : Parameter :=
  { spec := v
    defaultValue := d
    current := match v with
      | .fixed q => q
      | .linked _ => d
    activeTween := none }

/-- Modelled from the spec: applying one drained command —
`SetImmediate` goes to Idle at the new value, `SetValue` (re)starts a
tween from the current value toward the new target with elapsed 0. -/
def applyCommand (p : Parameter) (c : Command) : Parameter :=
  match c with
  | .setImmediate v => { p with current := v, activeTween := none }
  | .setValue target tw =>
      { p with activeTween := some ⟨p.current, target, tw, 0⟩ }

/-- `Parameter::update(dt, info)` (not under src/).  Modelled from the
spec: if a tween is active, advance its elapsed time by `dt`; on
reaching the duration, finalize to the target and clear the tween,
otherwise set the current value from `Tween::tween`. -/
def update (pf : ℚ → ℚ → ℚ) (p : Parameter) (dt : ℚ) : Parameter :=
  match p.activeTween with
  | none => p
  | some at' =>
      if at'.spec.duration ≤ at'.elapsed + dt then
        { p with current := at'.target, activeTween := none }
      else
        { p with
            current := at'.spec.tween pf at'.start at'.target
              (at'.elapsed + dt)
            activeTween := some { at' with elapsed := at'.elapsed + dt } }

end Parameter

/-- A stereo audio frame. -/
structure Frame where
  left : ℚ
  right : ℚ
deriving DecidableEq

/-- `Frame::panned` (not under src/).  Modelled from the spec: a stereo
pan transform driven by the effect's `[0, 1]` panning value (`0` = full
left, `0.5` = center, `1` = full right); the spec leaves the linear
vs. constant-power law as a design choice, and the linear law is used
here. -/
def Frame.panned (f : Frame) (pan : ℚ) : Frame :=
  ⟨f.left * (1 - pan), f.right * pan⟩

/-- `PanningControl` (src/crates/kira/src/effect/panning_control.rs):
the pending `set_panning` commands of its command reader, and the owned
panning parameter. -/
structure PanningControl where
  setPanningCommands : List Command
  panning : Parameter

namespace PanningControl

/-- `PanningControl::new` (panning_control.rs): stores the command
readers and builds the parameter as `Parameter::new(builder.0, 0.5)`. -/
def new (builder : Value) : PanningControl :=
  ⟨[], Parameter.new builder (1/2)⟩

/-- `Effect::on_start_processing` for `PanningControl`
(panning_control.rs): `read_commands_into_parameters!(self, panning)` —
drain every pending `set_panning` command, in FIFO order, into the
panning parameter. -/
def on_start_processing (e : PanningControl) : PanningControl :=
  ⟨[], e.setPanningCommands.foldl Parameter.applyCommand e.panning⟩

/-- `Effect::process` for `PanningControl` (panning_control.rs): first
`self.panning.update(dt, info)`, then `input.panned(self.panning.value())`
with the just-updated value. -/
def process (pf : ℚ → ℚ → ℚ) (e : PanningControl) (input : Frame)
    (dt : ℚ) : PanningControl × Frame :=
  let p := e.panning.update pf dt
  (⟨e.setPanningCommands, p⟩, input.panned p.current)

end PanningControl

/-- C5 counterexample: `PanningControl::new` passes `0.5` as the
parameter's default value, which is not `Panning::CENTER` (`0.0`). -/
theorem panning_control_default_not_center :
    (PanningControl.new (Value.fixed 0)).panning.defaultValue = 1/2 ∧
    Panning.CENTER = 0 ∧
    (PanningControl.new (Value.fixed 0)).panning.defaultValue
      ≠ Panning.CENTER := by
  refine ⟨rfl, rfl, ?_⟩
  norm_num [PanningControl.new, Parameter.new, Panning.CENTER]

/-- C5 amended: for every builder value, the panning parameter owned by
a new `PanningControl` has default value `0.5` — the centered position
in this effect's `[0, 1]` f64 panning convention — rather than
`Panning::CENTER = 0.0`. -/
theorem panning_control_default_half (v : Value) :
    (PanningControl.new v).panning.defaultValue = 1/2 :=
  rfl

/-- C9: `on_start_processing` drains all pending `set_panning` commands
into the panning parameter in FIFO order, leaving none pending; and
`process` first advances the parameter's tween state by `dt`, then pans
the input frame with the parameter's just-updated current value. -/
theorem panning_control_block_and_frame (pf : ℚ → ℚ → ℚ)
    (e : PanningControl) (input : Frame) (dt : ℚ) :
    e.on_start_processing.setPanningCommands = [] ∧
    e.on_start_processing.panning
      = e.setPanningCommands.foldl Parameter.applyCommand e.panning ∧
    (e.process pf input dt).1.panning = e.panning.update pf dt ∧
    (e.process pf input dt).2
      = input.panned (e.panning.update pf dt).current :=
  ⟨rfl, rfl, rfl, rfl⟩
